import Mathlib

/-!
Verification of the command resolution and dispatch engine of the `cli`
package (files `program.go` and `command.go`).

Shallow embedding notes:
- Output writers are modelled by the text they receive: each operation
  returns the string it writes to its sink alongside its result.  Writes
  to an in-memory sink cannot fail, so the write-error propagation of the
  newer `PrintUsage` variant never triggers; both source variants of the
  dispatcher agree on all dispatch logic modelled here.
- A Go `error` result is `Option GoError` (`none` = nil = success).
- `ActionFunc` receives a context (passed through unchanged, never
  inspected) and the command; a single invocation of a fixed action is
  observable only through the error it returns and the text it writes,
  so an action is modelled by that outcome pair.
- The collaborator `flag.FlagSet` (Go standard library, `ContinueOnError`
  mode) is embedded for string- and bool-valued flags, following
  `FlagSet.parseOne`/`Parse`; strings are treated as sequences of
  characters (ASCII inputs make Go byte indexing and char indexing agree).
-/

/-- Go error values returned by the dispatcher, the parser and actions.
The dispatcher builds its errors with `fmt.Errorf`; the constructors
record the distinct error kinds by their message shape. -/
inductive GoError where
  | errHelp
  | parseErr (msg : String)
  | unknownCommand (name : String)
  | defaultNotFound (name : String)
  | actionErr (msg : String)
deriving DecidableEq, Repr

/-- An output sink: `os.Stderr` or an injected writer (e.g. a test buffer). -/
inductive Sink where
  | stderr
  | buffer (id : Nat)
deriving DecidableEq, Repr

/-- One registered flag of a command flag set (string- or bool-valued). -/
structure GoFlag where
  name : String
  usage : String
  defValue : String
  isBool : Bool
deriving DecidableEq, Repr

/-- Go `flag.FlagSet` (mode `ContinueOnError`): registered flags plus the
configured output writer (`nil` means the default writer). -/
structure FlagSet where
  fsName : String
  formal : List GoFlag
  output : Option Sink
deriving DecidableEq, Repr

/-- Outcome of `FlagSet.Parse`: success, `flag.ErrHelp`, or another error. -/
inductive ParseOutcome where
  | ok
  | help
  | err (msg : String)
deriving DecidableEq, Repr

/-- Lookup in `FlagSet.formal` (a map keyed by flag name in Go; names are
unique, so scanning the list is equivalent). -/
def findFlag (formal : List GoFlag) (name : String) : Option GoFlag :=
  formal.find? (fun f => f.name == name)

/-- Go `strconv.ParseBool`. -/
def parseBoolStr (s : String) : Option Bool :=
  if s == "1" || s == "t" || s == "T" || s == "true" || s == "TRUE" || s == "True" then
    some true
  else if s == "0" || s == "f" || s == "F" || s == "false" || s == "FALSE" || s == "False" then
    some false
  else none

/-- Split a flag token at its first `=` (Go scans from index 1, but the
caller has already ruled out a leading `=`, so scanning from index 0 is
equivalent): returns the name part and, when an `=` is present, the value
part after it. -/
def splitAtEq : List Char → List Char × Option (List Char)
  | [] => ([], none)
  | c :: cs =>
    if c = '=' then ([], some cs)
    else
      let r := splitAtEq cs
      (c :: r.1, r.2)

/-- Result of one step of Go `flag.FlagSet.parseOne`: stop with a final
outcome and output, continue after consuming only the flag token, or
continue after consuming the flag token and its separate value token. -/
inductive ParseStep where
  | done (r : ParseOutcome × String)
  | cont
  | contVal
deriving DecidableEq, Repr

/-- Go `flag.FlagSet.parseOne` on the first remaining argument `s`
(`rest` are the arguments after it, consulted when a non-bool flag takes
its value from the next argument).  `usageText` is what the configured
`f.Usage` callback writes when invoked; `failf` writes the error message
and then calls `f.usage()`. -/
def parseOne (formal : List GoFlag) (usageText : String) (s : String)
    (rest : List String) : ParseStep :=
  if s.length < 2 || s.data.head? != some '-' then .done (.ok, "")
  else
    let numMinuses : Nat := if s.data.get? 1 == some '-' then 2 else 1
    if numMinuses == 2 && s.length == 2 then .done (.ok, "")
    else
      let nameChars := s.data.drop numMinuses
      if nameChars.head? == none || nameChars.head? == some '-' || nameChars.head? == some '=' then
        .done (.err ("bad flag syntax: " ++ s),
               "bad flag syntax: " ++ s ++ "\n" ++ usageText)
      else
        let nv := splitAtEq nameChars
        let name := String.mk nv.1
        match findFlag formal name with
        | none =>
          if name == "help" || name == "h" then .done (.help, usageText)
          else
            .done (.err ("flag provided but not defined: -" ++ name),
                   "flag provided but not defined: -" ++ name ++ "\n" ++ usageText)
        | some fl =>
          if fl.isBool then
            match nv.2 with
            | some v =>
              match parseBoolStr (String.mk v) with
              | some _ => .cont
              | none =>
                .done (.err ("invalid boolean value \x22" ++ String.mk v ++ "\x22 for -" ++ name
                        ++ ": parse error"),
                       "invalid boolean value \x22" ++ String.mk v ++ "\x22 for -" ++ name
                        ++ ": parse error\n" ++ usageText)
            | none => .cont
          else
            match nv.2 with
            | some _ => .cont
            | none =>
              match rest with
              | _ :: _ => .contVal
              | [] =>
                .done (.err ("flag needs an argument: -" ++ name),
                       "flag needs an argument: -" ++ name ++ "\n" ++ usageText)

/-- Go `flag.FlagSet.Parse` with `ContinueOnError`: iterates `parseOne`
until it stops, consuming one argument per `cont` step and two per
`contVal` step.  A `contVal` step with no following argument cannot
occur (`parseOne` then reports the missing-argument error instead), so
that arm is dead.  Returns the outcome and the text written to the flag
set output. -/
def fsParse (formal : List GoFlag) (usageText : String) : List String → ParseOutcome × String
  | [] => (.ok, "")
  | s :: rest =>
    match parseOne formal usageText s rest with
    | .done r => r
    | .cont => fsParse formal usageText rest
    | .contVal =>
      match rest with
      | [] => (.ok, "")
      | _ :: rest2 => fsParse formal usageText rest2

/-- Command: one invocable sub-command (`command.go`). -/
structure Command where
  name : String
  usage : String
  description : String
  flags : FlagSet
  /-- `Action ActionFunc`: `none` models a nil action; a present action is
  modelled by its observable outcome, the error it returns and the text it
  writes. -/
  action : Option (Option GoError × String)
  hideHelpFlag : Bool
  appName : String
deriving DecidableEq, Repr

/-- Go `NewCommand`. -/
def NewCommand (name usage : String) : Command :=
  { name := name, usage := usage, description := ""
    flags := { fsName := name, formal := [], output := none }
    action := none, hideHelpFlag := false, appName := "" }

/-- Go `DefaultHelpCommand`. -/
def DefaultHelpCommand : Command :=
  { name := "help", usage := "Show help information"
    description := "Display help information for commands"
    flags := { fsName := "help", formal := [], output := none }
    action := none, hideHelpFlag := false, appName := "" }

/-- Go `DefaultVersionCommand`. -/
def DefaultVersionCommand : Command :=
  { name := "version", usage := "Show version information"
    description := "Display the version of this program"
    flags := { fsName := "version", formal := [], output := none }
    action := none, hideHelpFlag := false, appName := "" }

/-- Insertion step for sorting flags by name (Go `flag.sortFlags`). -/
def insertFlag (f : GoFlag) : List GoFlag → List GoFlag
  | [] => [f]
  | g :: gs =>
    if compare f.name g.name = Ordering.gt then g :: insertFlag f gs
    else f :: g :: gs

/-- Go `flag.sortFlags`: the flags in lexicographic name order. -/
def sortFlags : List GoFlag → List GoFlag
  | [] => []
  | f :: fs => insertFlag f (sortFlags fs)

/-- One line of Go `flag.PrintDefaults` for a string- or bool-valued flag
(backquoted usage names are not modelled; unneeded by the claims). -/
def flagDefLine (f : GoFlag) : String :=
  let b := "  -" ++ f.name
  let b := if f.isBool then b else b ++ " string"
  let b := if b.length ≤ 4 then b ++ "\t" else b ++ "\n    \t"
  let b := b ++ f.usage
  let isZero := if f.isBool then f.defValue = "false" ∨ f.defValue = "" else f.defValue = ""
  let b := if isZero then b else b ++ " (default " ++ f.defValue ++ ")"
  b ++ "\n"

/-- Go `flag.PrintDefaults` over the registered flags. -/
def printDefaults (formal : List GoFlag) : String :=
  String.join ((sortFlags formal).map flagDefLine)

/-- Go `Command.PrintUsageTo`: the usage text of one command. -/
def Command.printUsageStr (c : Command) : String :=
  "Usage: " ++ (if c.appName ≠ "" then c.appName ++ " " else "") ++ c.name ++ " [options]\n\n"
    ++ c.usage ++ "\n"
    ++ (if c.description ≠ "" then "\n" ++ c.description ++ "\n" else "")
    ++ (if c.flags.formal ≠ [] then "\nOptions:\n" ++ printDefaults c.flags.formal else "")

/-- Go `Command.RunContext`: configures the flag set usage callback
according to `HideHelpFlag`, parses the arguments, maps `flag.ErrHelp`
to success when help is not hidden, then runs the action when one is
bound.  Returns the Go error (`none` = nil) and the text written to the
command output sink. -/
def Command.runContext (c : Command) (args : List String) : Option GoError × String :=
  let usageText := if c.hideHelpFlag then "" else c.printUsageStr
  match fsParse c.flags.formal usageText args with
  | (.ok, out) =>
    match c.action with
    | some (res, aout) => (res, out ++ aout)
    | none => (none, out)
  | (.help, out) =>
    if c.hideHelpFlag then (some .errHelp, out) else (none, out)
  | (.err m, out) => (some (.parseErr m), out)

/-- Program: the CLI application registry and dispatcher (`program.go`). -/
structure Program where
  commands : List Command
  name : String
  usage : String
  version : String
  banner : String
  defaultCommand : String
  hideHelpCommand : Bool
  hideVersionCommand : Bool
  hideHelpFlag : Bool
  hideVersionFlag : Bool
  helpCommand : Option Command
  versionCommand : Option Command
  output : Option Sink
deriving DecidableEq, Repr

/-- Go `NewProgram`. -/
def NewProgram (appName version : String) : Program :=
  { commands := [], name := appName, usage := "", version := version, banner := ""
    defaultCommand := "", hideHelpCommand := false, hideVersionCommand := false
    hideHelpFlag := false, hideVersionFlag := false
    helpCommand := none, versionCommand := none, output := none }

/-- Go `Program.Output`: the configured sink, defaulting to `os.Stderr`. -/
def Program.outputW (p : Program) : Sink :=
  p.output.getD Sink.stderr

/-- Go lowercase `Program.get`: user-registered commands first (insertion
order), then the built-in `help` and `version` commands when not hidden,
preferring a user-supplied override command over a synthesized default. -/
def Program.get (p : Program) (name : String) : Option Command :=
  match p.commands.find? (fun c => c.name == name) with
  | some cmd => some cmd
  | none =>
    if ¬p.hideHelpCommand ∧ name = "help" then
      some (p.helpCommand.getD DefaultHelpCommand)
    else if ¬p.hideVersionCommand ∧ name = "version" then
      some (p.versionCommand.getD DefaultVersionCommand)
    else none

/-- The two writes Go `Program.Get` performs on the found command:
`cmd.SetOutput(p.Output())` and `cmd.SetAppName(p.Name)` (in the pure
model a mutation becomes an updated copy). -/
def bindCmd (p : Program) (c : Command) : Command :=
  { c with flags := { c.flags with output := some p.outputW }, appName := p.name }

/-- Go `Program.Get`: lookup plus output and app-name binding. -/
def Program.Get (p : Program) (name : String) : Option Command :=
  (p.get name).map (bindCmd p)

/-- The line `"<Name> version <Version>\n"` printed by the global `-v`
flag, the built-in `version` command and the usage header. -/
def Program.versionLine (p : Program) : String :=
  p.name ++ " version " ++ p.version ++ "\n"

/-- Pad a command name on the right to the given width (Go `%-*s`). -/
def padRight (s : String) (w : Nat) : String :=
  s ++ String.mk (List.replicate (w - s.length) ' ')

/-- Go `Program.PrintUsageTo`: the full-program usage text. -/
def Program.printUsageStr (p : Program) : String :=
  let maxLen := (p.commands.map (fun c => c.name.length)).foldl max 0
  (if p.banner ≠ "" then p.banner ++ "\n\n" else "")
    ++ (p.versionLine
    ++ ((if p.usage ≠ "" then p.usage ++ "\n" else "")
    ++ ("\nUSAGE:\n"
    ++ ("    " ++ p.name ++ " [command] [options]\n\nCOMMANDS:\n"
    ++ (String.join (p.commands.map
          (fun c => "    " ++ padRight c.name maxLen ++ "    " ++ c.usage ++ "\n"))
    ++ ("\nRun \x27" ++ p.name ++ " [command] -h\x27 for more information on a command.\n"))))))

/-- Go `isFlag`: the argument begins with the flag marker. -/
def isFlag (arg : String) : Bool :=
  arg.length > 0 && arg.data.head? == some '-'

/-- Which global flag a token matches in the residual-argument scan. -/
inductive GFlagKind where
  | version
  | help
deriving DecidableEq, Repr

/-- The global-flag scan of `Program.RunContext` (the `for` loop over
`cmdArgs`): the first token that is an unhidden `-v`/`--version` or
`-h`/`--help`, checking the version tokens before the help tokens on each
argument. -/
def Program.globalFlagHit (p : Program) : List String → Option GFlagKind
  | [] => none
  | a :: rest =>
    if ¬p.hideVersionFlag ∧ (a = "-v" ∨ a = "--version") then some .version
    else if ¬p.hideHelpFlag ∧ (a = "-h" ∨ a = "--help") then some .help
    else p.globalFlagHit rest

/-- The body of Go `Program.RunContext` after the command name and the
residual arguments have been selected: global-flag scan, built-in
`version` and `help` command handling, then lookup and delegation. -/
def Program.dispatch (p : Program) (cmdName : String) (cmdArgs : List String)
    (usingDefault : Bool) : Option GoError × String :=
  match p.globalFlagHit cmdArgs with
  | some .version => (none, p.versionLine)
  | some .help => (none, p.printUsageStr)
  | none =>
    if ¬p.hideVersionCommand ∧ cmdName = "version" then (none, p.versionLine)
    else if ¬p.hideHelpCommand ∧ cmdName = "help" then
      match cmdArgs with
      | subCmdName :: _ =>
        match p.Get subCmdName with
        | none =>
          (some (.unknownCommand subCmdName),
           "help: unknown command: " ++ subCmdName ++ "\n")
        | some cmd => (none, cmd.printUsageStr)
      | [] => (none, p.printUsageStr)
    else
      match p.Get cmdName with
      | none =>
        if usingDefault then
          (some (.defaultNotFound cmdName),
           "Default command \x27" ++ cmdName ++ "\x27 not found\n\n" ++ p.printUsageStr)
        else
          (some (.unknownCommand cmdName),
           "Unknown command: " ++ cmdName ++ "\n\n" ++ p.printUsageStr)
      | some cmd => cmd.runContext cmdArgs

/-- Go `Program.RunContext`: selects the command name and the residual
arguments (default command when no command token is present or the first
token is a flag; otherwise the explicit token), then dispatches.  Returns
the Go error (`none` = nil) and the text written to the program output
sink. -/
def Program.RunContext (p : Program) (args : List String) : Option GoError × String :=
  if args.length < 2 ∨ isFlag (args.getD 1 "") = true then
    if p.defaultCommand ≠ "" then
      p.dispatch p.defaultCommand (args.drop 1) true
    else
      (none, p.printUsageStr)
  else
    p.dispatch (args.getD 1 "") (args.drop 2) false

/-- The text `t` occurs contiguously inside `s`. -/
def strContains (s t : String) : Prop :=
  t.data <:+: s.data

instance (s t : String) : Decidable (strContains s t) :=
  inferInstanceAs (Decidable (t.data <:+: s.data))

theorem strContains_appL (s t u : String) (h : strContains t u) :
    strContains (s ++ t) u := by
  simpa [strContains, String.data_append] using
    h.trans (List.suffix_append s.data t.data).isInfix

theorem strContains_appR (s t u : String) (h : strContains s u) :
    strContains (s ++ t) u := by
  simpa [strContains, String.data_append] using
    h.trans (List.prefix_append s.data t.data).isInfix

theorem strContains_here (u t : String) : strContains (u ++ t) u := by
  simpa [strContains, String.data_append] using
    (List.prefix_append u.data t.data).isInfix

theorem strContains_refl (u : String) : strContains u u :=
  List.infix_rfl

/-- Unfolding of `Program.RunContext` for an argument vector that has a
token after the program name. -/
theorem runContext_cons₂ (p : Program) (prog a : String) (rest : List String) :
    p.RunContext (prog :: a :: rest) =
      if isFlag a = true then
        (if p.defaultCommand ≠ "" then p.dispatch p.defaultCommand (a :: rest) true
         else (none, p.printUsageStr))
      else p.dispatch a rest false := by
  have h2 : ¬((prog :: a :: rest).length < 2) := by
    simp [List.length_cons]
  simp only [Program.RunContext, eq_false h2, false_or, List.getD_cons_succ,
    List.getD_cons_zero, List.drop_succ_cons, List.drop_zero]

/-- Unfolding of `Program.RunContext` for the bare program invocation. -/
theorem runContext_one (p : Program) (prog : String) :
    p.RunContext [prog] =
      if p.defaultCommand ≠ "" then p.dispatch p.defaultCommand [] true
      else (none, p.printUsageStr) := by
  have h2 : ([prog] : List String).length < 2 := by simp
  simp only [Program.RunContext, eq_true h2, true_or, if_true, List.drop_succ_cons,
    List.drop_zero, List.drop_nil]

/-- The global-flag scan skips an argument that matches no unhidden
global flag token. -/
theorem globalFlagHit_cons_skip (p : Program) (a : String) (rest : List String)
    (h1 : p.hideVersionFlag = false → a ≠ "-v" ∧ a ≠ "--version")
    (h2 : p.hideHelpFlag = false → a ≠ "-h" ∧ a ≠ "--help") :
    p.globalFlagHit (a :: rest) = p.globalFlagHit rest := by
  have hv : ¬(¬p.hideVersionFlag ∧ (a = "-v" ∨ a = "--version")) := by
    rcases hb : p.hideVersionFlag with _ | _
    · rcases h1 hb with ⟨x1, x2⟩
      simp [x1, x2]
    · simp [hb]
  have hh : ¬(¬p.hideHelpFlag ∧ (a = "-h" ∨ a = "--help")) := by
    rcases hb : p.hideHelpFlag with _ | _
    · rcases h2 hb with ⟨x1, x2⟩
      simp [x1, x2]
    · simp [hb]
  simp only [Program.globalFlagHit, if_neg hv, if_neg hh]

/-- When both global flags are visible and some residual argument is one
of the four global flag tokens, the scan hits. -/
theorem globalFlagHit_ne_none (p : Program) (rest : List String)
    (hv : p.hideVersionFlag = false) (hh : p.hideHelpFlag = false)
    (a : String) (ha : a ∈ rest)
    (htok : a = "-v" ∨ a = "--version" ∨ a = "-h" ∨ a = "--help") :
    p.globalFlagHit rest ≠ none := by
  induction rest with
  | nil => cases ha
  | cons b r ih =>
    by_cases hbv : ¬p.hideVersionFlag = true ∧ (b = "-v" ∨ b = "--version")
    · simp only [Program.globalFlagHit, if_pos hbv]
      simp
    · by_cases hbh : ¬p.hideHelpFlag = true ∧ (b = "-h" ∨ b = "--help")
      · simp only [Program.globalFlagHit, if_neg hbv, if_pos hbh]
        simp
      · have hab : a ≠ b := by
          intro he
          subst he
          rcases htok with h | h | h | h
          · exact hbv ⟨by simp [hv], Or.inl h⟩
          · exact hbv ⟨by simp [hv], Or.inr h⟩
          · exact hbh ⟨by simp [hh], Or.inl h⟩
          · exact hbh ⟨by simp [hh], Or.inr h⟩
        have har : a ∈ r := by
          rcases List.mem_cons.mp ha with h | h
          · exact absurd h hab
          · exact h
        simp only [Program.globalFlagHit, if_neg hbv, if_neg hbh]
        exact ih har

/-- Dispatch when the scan hits an unhidden version token. -/
theorem dispatch_hit_version (p : Program) (nm : String) (cmdArgs : List String)
    (ud : Bool) (h : p.globalFlagHit cmdArgs = some .version) :
    p.dispatch nm cmdArgs ud = (none, p.versionLine) := by
  simp only [Program.dispatch, h]

/-- Dispatch when the scan hits an unhidden help token. -/
theorem dispatch_hit_help (p : Program) (nm : String) (cmdArgs : List String)
    (ud : Bool) (h : p.globalFlagHit cmdArgs = some .help) :
    p.dispatch nm cmdArgs ud = (none, p.printUsageStr) := by
  simp only [Program.dispatch, h]

/-- Dispatch delegates to a user-registered command when the scan misses,
and the command name is not captured by an unhidden built-in branch. -/
theorem dispatch_delegates (p : Program) (nm : String) (cmdArgs : List String)
    (ud : Bool) (c : Command)
    (hfind : p.commands.find? (fun k => k.name == nm) = some c)
    (hv : p.hideVersionCommand = false → nm ≠ "version")
    (hh : p.hideHelpCommand = false → nm ≠ "help")
    (hscan : p.globalFlagHit cmdArgs = none) :
    p.dispatch nm cmdArgs ud = (bindCmd p c).runContext cmdArgs := by
  have hvc : ¬(¬p.hideVersionCommand ∧ nm = "version") := by
    rcases hb : p.hideVersionCommand with _ | _
    · simp [hv hb]
    · simp [hb]
  have hhc : ¬(¬p.hideHelpCommand ∧ nm = "help") := by
    rcases hb : p.hideHelpCommand with _ | _
    · simp [hh hb]
    · simp [hb]
  simp only [Program.dispatch, hscan, if_neg hvc, if_neg hhc, Program.Get,
    Program.get, hfind]
  rfl

/-- C7: for every Program with no default command set, resolve_and_run
with no arguments beyond the program name returns nil (an empty
invocation is not a failure) and writes text containing "USAGE:" to the
output sink. -/
theorem C7_empty_invocation (p : Program) (prog : String)
    (hd : p.defaultCommand = "") :
    p.RunContext [prog] = (none, p.printUsageStr) ∧
    strContains p.printUsageStr "USAGE:" := by
  constructor
  · rw [runContext_one, if_neg (by simp [hd])]
  · have hbase : strContains "\nUSAGE:\n" "USAGE:" := by decide
    simp only [Program.printUsageStr]
    exact strContains_appL _ _ _ (strContains_appL _ _ _ (strContains_appL _ _ _
      (strContains_appR _ _ _ hbase)))

def pW7 : Program := NewProgram "testapp" "1.0.0"

theorem C7_witness :
    pW7.defaultCommand = "" ∧
    (pW7.RunContext ["testapp"] = (none, pW7.printUsageStr) ∧
     strContains pW7.printUsageStr "USAGE:") :=
  ⟨by decide, C7_empty_invocation pW7 "testapp" (by decide)⟩

/-- C10: for every argument vector whose second token is non-empty and
begins with the flag marker (including the bare tokens "-" and "--"),
resolve_and_run takes the no-command branch — default-command dispatch
with the whole tail as residual arguments, or usage printing — so the
token never becomes the dispatched command name, even when a registered
command carries that exact name (the quantification covers every
Program, hence every registry content). -/
theorem C10_flag_token_takes_no_command_branch (p : Program) (prog a : String)
    (rest : List String) (ha : isFlag a = true) :
    p.RunContext (prog :: a :: rest) =
      if p.defaultCommand ≠ "" then p.dispatch p.defaultCommand (a :: rest) true
      else (none, p.printUsageStr) := by
  rw [runContext_cons₂, if_pos ha]

def pW10 : Program :=
  { NewProgram "testapp" "1.0.0" with commands := [NewCommand "--" "weird name"] }

theorem C10_witness :
    isFlag "--" = true ∧
    pW10.RunContext ["testapp", "--"] =
      (if pW10.defaultCommand ≠ "" then pW10.dispatch pW10.defaultCommand ["--"] true
       else (none, pW10.printUsageStr)) :=
  ⟨by decide, C10_flag_token_takes_no_command_branch pW10 "testapp" "--" [] (by decide)⟩

/-- C2: for every Program whose version flag is not hidden,
resolve_and_run on [prog, "-v"] returns nil, writes the line
"name version version" to the output sink (exactly that line when a
default command is configured; as the header of the printed usage when
none is), and never executes the default command: the result is pure
dispatcher text in both cases, independent of every registered action. -/
theorem C2_version_flag_short_circuit (p : Program) (prog : String)
    (h : p.hideVersionFlag = false) :
    (p.RunContext [prog, "-v"]).1 = none ∧
    strContains (p.RunContext [prog, "-v"]).2 p.versionLine ∧
    (p.RunContext [prog, "-v"] = (none, p.versionLine) ∨
     p.RunContext [prog, "-v"] = (none, p.printUsageStr)) := by
  have hit : p.globalFlagHit ["-v"] = some .version := by
    simp [Program.globalFlagHit, h]
  have hcontain : strContains p.printUsageStr p.versionLine := by
    simp only [Program.printUsageStr]
    exact strContains_appL _ _ _ (strContains_here _ _)
  have hrc : p.RunContext [prog, "-v"] =
      if p.defaultCommand ≠ "" then (none, p.versionLine) else (none, p.printUsageStr) := by
    rw [runContext_cons₂, if_pos (by decide : isFlag "-v" = true)]
    by_cases hd : p.defaultCommand ≠ ""
    · rw [if_pos hd, if_pos hd, dispatch_hit_version _ _ _ _ hit]
    · rw [if_neg hd, if_neg hd]
  by_cases hd : p.defaultCommand ≠ ""
  · rw [hrc, if_pos hd]
    exact ⟨rfl, strContains_refl _, Or.inl rfl⟩
  · rw [hrc, if_neg hd]
    exact ⟨rfl, hcontain, Or.inr rfl⟩

def pW2 : Program :=
  { NewProgram "testapp" "1.0.0" with
    defaultCommand := "web"
    commands := [{ NewCommand "web" "Web server" with
                    action := some (some (.actionErr "ran"), "ACTION RAN") }] }

theorem C2_witness :
    pW2.hideVersionFlag = false ∧
    ((pW2.RunContext ["testapp", "-v"]).1 = none ∧
     strContains (pW2.RunContext ["testapp", "-v"]).2 pW2.versionLine ∧
     (pW2.RunContext ["testapp", "-v"] = (none, pW2.versionLine) ∨
      pW2.RunContext ["testapp", "-v"] = (none, pW2.printUsageStr))) :=
  ⟨by decide, C2_version_flag_short_circuit pW2 "testapp" (by decide)⟩

/-- C3: for every Program with both global flags visible and an explicit
(non-flag) command token, if any residual argument after the command
token literal-equals "-v"/"--version" or "-h"/"--help", resolve_and_run
short-circuits before the named command logic: it returns nil with
either the version line or the full program usage as its only output, so
the named command is never executed (the result is dispatcher text,
independent of every registered action). -/
theorem C3_global_flags_after_named_command (p : Program) (prog nm : String)
    (rest : List String)
    (hv : p.hideVersionFlag = false) (hh : p.hideHelpFlag = false)
    (hnm : isFlag nm = false)
    (a : String) (ha : a ∈ rest)
    (htok : a = "-v" ∨ a = "--version" ∨ a = "-h" ∨ a = "--help") :
    p.RunContext (prog :: nm :: rest) = (none, p.versionLine) ∨
    p.RunContext (prog :: nm :: rest) = (none, p.printUsageStr) := by
  rw [runContext_cons₂, if_neg (by simp [hnm])]
  have hne := globalFlagHit_ne_none p rest hv hh a ha htok
  rcases hg : p.globalFlagHit rest with _ | k
  · exact absurd hg hne
  · cases k
    · exact Or.inl (dispatch_hit_version _ _ _ _ hg)
    · exact Or.inr (dispatch_hit_help _ _ _ _ hg)

def pW3 : Program :=
  { NewProgram "testapp" "1.0.0" with
    commands := [{ NewCommand "serve" "Serve" with
                    action := some (some (.actionErr "ran"), "ACTION RAN") }] }

theorem C3_witness :
    pW3.hideVersionFlag = false ∧ pW3.hideHelpFlag = false ∧ isFlag "serve" = false ∧
    ("-h" ∈ (["--port", "-h"] : List String)) ∧
    (pW3.RunContext ["testapp", "serve", "--port", "-h"] = (none, pW3.versionLine) ∨
     pW3.RunContext ["testapp", "serve", "--port", "-h"] = (none, pW3.printUsageStr)) :=
  ⟨by decide, by decide, by decide, by decide,
   C3_global_flags_after_named_command pW3 "testapp" "serve" ["--port", "-h"]
     (by decide) (by decide) (by decide) "-h" (by decide) (by decide)⟩

def verCmdCE1 : Command :=
  { NewCommand "version" "My version" with
    action := some (some (.actionErr "custom"), "CUSTOM OUTPUT") }

def pCE1 : Program := { NewProgram "app" "1.0" with commands := [verCmdCE1] }

/-- C1 counterexample: a Program with a user-registered command named
"version" and the built-in hide-toggle false.  resolve_and_run on the
token "version" performs the built-in behavior (prints the version line
and returns nil); it does not delegate to the user command, whose
execute would return the action error and write the action output. -/
theorem C1_counterexample :
    pCE1.hideVersionCommand = false ∧
    pCE1.RunContext ["app", "version"] = (none, "app version 1.0\n") ∧
    (bindCmd pCE1 verCmdCE1).runContext [] = (some (.actionErr "custom"), "CUSTOM OUTPUT") ∧
    pCE1.RunContext ["app", "version"] ≠ (bindCmd pCE1 verCmdCE1).runContext [] := by
  refine ⟨by decide, by decide, by decide, by decide⟩

/-- C1 amended: a user-registered command named "version" or "help" is
dispatched by resolve_and_run only when the corresponding built-in
hide-toggle is true; with the toggle false, the built-in branch
intercepts the token before lookup (user precedence over the built-in
holds unconditionally only in the lookup function Get, which scans the
user registry first).  Stated generally: resolve_and_run delegates to
the first user-registered command matching the token whenever the token
is not captured by an unhidden built-in command branch and no unhidden
global flag token occurs among the residual arguments. -/
theorem C1_user_command_dispatch (p : Program) (prog nm : String)
    (rest : List String) (c : Command)
    (hfind : p.commands.find? (fun k => k.name == nm) = some c)
    (hv : p.hideVersionCommand = false → nm ≠ "version")
    (hh : p.hideHelpCommand = false → nm ≠ "help")
    (hnm : isFlag nm = false)
    (hscan : p.globalFlagHit rest = none) :
    p.RunContext (prog :: nm :: rest) = (bindCmd p c).runContext rest := by
  rw [runContext_cons₂, if_neg (by simp [hnm]),
    dispatch_delegates p _ _ _ c hfind hv hh hscan]

def verCmdW1 : Command :=
  { NewCommand "version" "My version" with
    action := some (some (.actionErr "custom"), "CUSTOM OUTPUT") }

def pW1 : Program :=
  { NewProgram "app" "1.0" with commands := [verCmdW1], hideVersionCommand := true }

theorem C1_witness :
    pW1.commands.find? (fun k => k.name == "version") = some verCmdW1 ∧
    pW1.RunContext ["app", "version"] = (bindCmd pW1 verCmdW1).runContext [] :=
  ⟨by decide,
   C1_user_command_dispatch pW1 "app" "version" [] verCmdW1 (by decide)
     (by decide) (by decide) (by decide) (by decide)⟩

def verCmdCE4 : Command :=
  { NewCommand "version" "Custom version" with
    action := some (some (.actionErr "ran"), "ACTION RAN") }

def pCE4 : Program :=
  { NewProgram "app" "1.0" with commands := [verCmdCE4], defaultCommand := "version" }

/-- C4 counterexample: a Program whose registered default command is
named "version" with the version built-in visible.  On argv
[prog, "-x"] (a flag token, not a global flag), resolve_and_run prints
the built-in version line instead of forwarding ["-x"] to the default
command, whose execute would fail on the undefined flag. -/
theorem C4_counterexample :
    pCE4.defaultCommand = "version" ∧
    isFlag "-x" = true ∧
    pCE4.globalFlagHit ["-x"] = none ∧
    pCE4.RunContext ["app", "-x"] = (none, "app version 1.0\n") ∧
    pCE4.RunContext ["app", "-x"] ≠ (bindCmd pCE4 verCmdCE4).runContext ["-x"] := by
  refine ⟨by decide, by decide, by decide, by decide, by decide⟩

/-- C4 amended: for every Program with a registered default command
whose name is not captured by an unhidden built-in branch (not "version"
while the version built-in is visible, nor "help" while the help
built-in is visible), when argv[1] exists and begins with the flag
marker and no unhidden global flag token occurs among argv[1:],
resolve_and_run runs the default command on the entire argv[1:] slice,
leading flag included; and with no argv[1] at all it runs the default
command on the empty argument list. -/
theorem C4_default_command_forwarding (p : Program) (prog a : String)
    (rest : List String) (c : Command)
    (hreg : p.commands.find? (fun k => k.name == p.defaultCommand) = some c)
    (hv : p.hideVersionCommand = false → p.defaultCommand ≠ "version")
    (hh : p.hideHelpCommand = false → p.defaultCommand ≠ "help")
    (hd : p.defaultCommand ≠ "")
    (hfa : isFlag a = true)
    (hscan : p.globalFlagHit (a :: rest) = none) :
    p.RunContext (prog :: a :: rest) = (bindCmd p c).runContext (a :: rest) ∧
    p.RunContext [prog] = (bindCmd p c).runContext [] := by
  constructor
  · rw [runContext_cons₂, if_pos hfa, if_pos hd,
      dispatch_delegates p _ _ _ c hreg hv hh hscan]
  · rw [runContext_one, if_pos hd,
      dispatch_delegates p _ [] _ c hreg hv hh (by simp [Program.globalFlagHit])]

def webCmdW4 : Command :=
  { NewCommand "web" "Web server" with
    action := some (none, "WEB RAN") }

def pW4 : Program :=
  { NewProgram "testapp" "1.0.0" with commands := [webCmdW4], defaultCommand := "web" }

theorem C4_witness :
    pW4.commands.find? (fun k => k.name == pW4.defaultCommand) = some webCmdW4 ∧
    (pW4.RunContext ["testapp", "--port", "3000"] =
       (bindCmd pW4 webCmdW4).runContext ["--port", "3000"] ∧
     pW4.RunContext ["testapp"] = (bindCmd pW4 webCmdW4).runContext []) :=
  ⟨by decide,
   C4_default_command_forwarding pW4 "testapp" "--port" ["3000"] webCmdW4
     (by decide) (by decide) (by decide) (by decide) (by decide) (by decide)⟩

def pCE6 : Program := NewProgram "app" "1.0"

/-- C6 counterexample: with the help command and all global flags
visible, resolve_and_run on [prog, "help", "-v"] is intercepted by the
global-flag scan of the residual arguments: it prints the version line
and returns nil, although "-v" is not resolvable as a command, so the
claimed "help: unknown command: -v" output and command-not-found error
do not occur. -/
theorem C6_counterexample :
    pCE6.Get "-v" = none ∧
    pCE6.RunContext ["app", "help", "-v"] = (none, "app version 1.0\n") ∧
    pCE6.RunContext ["app", "help", "-v"] ≠
      (some (.unknownCommand "-v"), "help: unknown command: -v\n") := by
  refine ⟨by decide, by decide, by decide⟩

/-- C6 amended: for every Program with the help command not hidden and a
help argument that is not itself an unhidden global flag token (the
global-flag scan runs first and would otherwise intercept it):
resolve_and_run on [prog, "help", name] writes
"help: unknown command: name" and returns a command-not-found error when
lookup fails, and prints the usage of the bound found command and
returns nil when lookup succeeds; and resolve_and_run on [prog, "help"]
prints the full program usage and returns nil. -/
theorem C6_help_command (p : Program) (prog sub : String)
    (hhc : p.hideHelpCommand = false)
    (hv : p.hideVersionFlag = false → sub ≠ "-v" ∧ sub ≠ "--version")
    (hh : p.hideHelpFlag = false → sub ≠ "-h" ∧ sub ≠ "--help") :
    p.RunContext [prog, "help", sub] =
      (match p.Get sub with
       | none => (some (.unknownCommand sub), "help: unknown command: " ++ sub ++ "\n")
       | some cmd => (none, cmd.printUsageStr)) ∧
    p.RunContext [prog, "help"] = (none, p.printUsageStr) := by
  have hpos : ¬p.hideHelpCommand = true ∧ ("help" : String) = "help" := by
    simp [hhc]
  have hnegv : ¬(¬p.hideVersionCommand = true ∧ ("help" : String) = "version") := by
    simp
  constructor
  · have hscan : p.globalFlagHit [sub] = none := by
      rw [globalFlagHit_cons_skip p sub [] hv hh]
      rfl
    rw [runContext_cons₂, if_neg (by decide)]
    simp [Program.dispatch, hscan, hhc]
  · rw [runContext_cons₂, if_neg (by decide)]
    have hscan : p.globalFlagHit [] = none := by simp [Program.globalFlagHit]
    simp [Program.dispatch, hscan, hhc]

def testCmdW6 : Command :=
  { NewCommand "test" "Test command" with description := "Detailed test description" }

def pW6 : Program := { NewProgram "testapp" "1.0.0" with commands := [testCmdW6] }

theorem C6_witness :
    pW6.hideHelpCommand = false ∧
    (pW6.RunContext ["testapp", "help", "badname"] =
       (match pW6.Get "badname" with
        | none => (some (.unknownCommand "badname"),
                   "help: unknown command: " ++ "badname" ++ "\n")
        | some cmd => (none, cmd.printUsageStr)) ∧
     pW6.RunContext ["testapp", "help"] = (none, pW6.printUsageStr)) :=
  ⟨by decide, C6_help_command pW6 "testapp" "badname" (by decide) (by decide) (by decide)⟩

/-- One step of Go parsing on the token "-h" when the flag set defines
no flag named "h": `parseOne` reaches the reserved help case, invokes
the configured usage callback and stops with `flag.ErrHelp`. -/
theorem parseOne_dash_h (formal : List GoFlag) (u : String) (rest : List String)
    (hno : findFlag formal "h" = none) :
    parseOne formal u "-h" rest = .done (.help, u) := by
  have h4 : splitAtEq ['h'] = (['h'], none) := by decide
  rw [parseOne.eq_def]
  simp [hno, h4]
  decide

/-- Parsing the argument list ["-h"] against a flag set that defines no
flag named "h" reports `flag.ErrHelp` after writing the usage text. -/
theorem fsParse_dash_h (formal : List GoFlag) (u : String)
    (hno : findFlag formal "h" = none) :
    fsParse formal u ["-h"] = (.help, u) := by
  rw [fsParse.eq_2, parseOne_dash_h formal u [] hno]

/-- C5 counterexample: a Command that defines its own bool flag named
"h".  Parsing ["-h"] consumes that flag and succeeds, so with the help
flag hidden execute returns nil instead of the help-requested error, and
with the help flag visible execute returns nil without writing any usage
text. -/
def cCE5hidden : Command :=
  { NewCommand "test" "Test command" with
    flags := { fsName := "test"
               formal := [{ name := "h", usage := "own h flag",
                            defValue := "false", isBool := true }]
               output := none }
    hideHelpFlag := true }

def cCE5visible : Command := { cCE5hidden with hideHelpFlag := false }

theorem C5_counterexample :
    cCE5hidden.runContext ["-h"] = (none, "") ∧
    cCE5visible.runContext ["-h"] = (none, "") ∧
    ¬strContains ("" : String) "Usage:" := by
  refine ⟨by decide, by decide, by decide⟩

/-- C5 amended: for every Command whose option set defines no flag named
"h": with the help flag hidden, execute on ["-h"] returns the
help-requested error verbatim and writes nothing; with the help flag not
hidden, it returns nil and writes the command usage text, which contains
"Usage:", to the command output sink. -/
theorem C5_help_flag_toggle (c : Command)
    (hno : findFlag c.flags.formal "h" = none) :
    (c.hideHelpFlag = true → c.runContext ["-h"] = (some .errHelp, "")) ∧
    (c.hideHelpFlag = false →
      c.runContext ["-h"] = (none, c.printUsageStr) ∧
      strContains c.printUsageStr "Usage:") := by
  have hcontain : strContains c.printUsageStr "Usage:" := by
    have hbase : strContains "Usage: " "Usage:" := by decide
    simp only [Command.printUsageStr]
    exact strContains_appR _ _ _ (strContains_appR _ _ _ (strContains_appR _ _ _
      (strContains_appR _ _ _ (strContains_appR _ _ _ (strContains_appR _ _ _
        (strContains_appR _ _ _ hbase))))))
  constructor
  · intro hht
    simp [Command.runContext, hht, fsParse_dash_h c.flags.formal "" hno]
  · intro hhf
    refine ⟨?_, hcontain⟩
    simp [Command.runContext, hhf, fsParse_dash_h c.flags.formal c.printUsageStr hno]

def cW5 : Command := NewCommand "test" "Test command"

theorem C5_witness :
    findFlag cW5.flags.formal "h" = none ∧
    ((cW5.hideHelpFlag = true → cW5.runContext ["-h"] = (some .errHelp, "")) ∧
     (cW5.hideHelpFlag = false →
       cW5.runContext ["-h"] = (none, cW5.printUsageStr) ∧
       strContains cW5.printUsageStr "Usage:")) :=
  ⟨by decide, C5_help_flag_toggle cW5 (by decide)⟩

/-- C8: for every Command with no bound action, execute returns nil
whenever parsing of the arguments succeeds: a command without an action
is a no-op, not an error. -/
theorem C8_no_action_is_noop (c : Command) (args : List String)
    (hact : c.action = none)
    (hok : (fsParse c.flags.formal
             (if c.hideHelpFlag then "" else c.printUsageStr) args).1 = .ok) :
    (c.runContext args).1 = none := by
  simp only [Command.runContext]
  rcases hp : fsParse c.flags.formal
      (if c.hideHelpFlag then "" else c.printUsageStr) args with ⟨o, out⟩
  rw [hp] at hok
  simp only at hok
  subst hok
  simp [hact]

def cW8 : Command := NewCommand "test" "Test command"

theorem C8_witness :
    cW8.action = none ∧
    (fsParse cW8.flags.formal
      (if cW8.hideHelpFlag then "" else cW8.printUsageStr) ["positional"]).1 = .ok ∧
    (cW8.runContext ["positional"]).1 = none :=
  ⟨by decide, by decide, C8_no_action_is_noop cW8 ["positional"] (by decide) (by decide)⟩

/-- C9: lookup via Get, when it finds a command, performs exactly the
two writes of the Go source on that command — the flag set output sink
becomes the program output and the owner app name becomes the program
name — and every other field of the found command is unchanged; when the
underlying lookup finds nothing, Get returns nil and no command is
touched (in the pure model the two writes appear as the updated copy
that Get returns). -/
theorem C9_get_binds_exactly_two_fields (p : Program) (nm : String) :
    (match p.get nm with
     | none => p.Get nm = none
     | some c =>
       p.Get nm = some (bindCmd p c) ∧
       (bindCmd p c).flags.output = some p.outputW ∧
       (bindCmd p c).appName = p.name ∧
       (bindCmd p c).name = c.name ∧
       (bindCmd p c).usage = c.usage ∧
       (bindCmd p c).description = c.description ∧
       (bindCmd p c).flags.fsName = c.flags.fsName ∧
       (bindCmd p c).flags.formal = c.flags.formal ∧
       (bindCmd p c).action = c.action ∧
       (bindCmd p c).hideHelpFlag = c.hideHelpFlag) := by
  rcases hg : p.get nm with _ | c
  · simp [Program.Get, hg]
  · simp [Program.Get, hg, bindCmd]
